import Mathlib

/-!
# Modpack import task (`api/logic/InstanceImportTask.cpp`)

A shallow embedding of `InstanceImportTask`: the recursive marker search
`findRecursive`, and the slots of the task as functions from the task's data
members to the updated members together with the list of calls the slot makes
on its collaborators (target provider, settings/instance objects, icon list,
resolver, and the notifications of the `Task` base class).

Conventions of the embedding:

* `qint64` values are `Int`; the only arithmetic is `current / 2`, which is the
  truncating division of C++ (`Int.tdiv`) and cannot overflow.
* Paths are strings; `QDir(p).absolutePath()` of the (absolute) staging path is
  `p`, and a path is joined to a child name with `/`.
* `tr` returns the source text (no translation catalogue is installed).
* The staged directory tree is a finite tree of regular files and directories.
  Every entry carries what `QFileInfo::isHidden()` reports for it (on Unix: the
  name starts with a dot; on Windows: the hidden attribute). The listing
  `QDir::entryInfoList(NoDotAndDotDot | Dirs | Files, DirsLast)` is called
  without `QDir::Hidden`, so it leaves hidden entries out.
-/

/-! ## File-system model -/

/-- A node of a directory tree: a regular file, or a directory with its content.
`hidden` is the value of `QFileInfo::isHidden()` for the entry. -/
inductive Entry where
  | file (name : String) (hidden : Bool)
  | dir (name : String) (hidden : Bool) (children : List Entry)

/-- Name of the entry inside its parent directory. -/
def Entry.name : Entry → String
  | .file n _ => n
  | .dir n _ _ => n

/-- Whether the entry is a directory. -/
def Entry.isDir : Entry → Bool
  | .file _ _ => false
  | .dir _ _ _ => true

/-- Whether the entry is hidden, as `QFileInfo::isHidden()` reports. -/
def Entry.isHidden : Entry → Bool
  | .file _ h => h
  | .dir _ h _ => h

/-- Content of a directory entry (nothing for a file). -/
def Entry.children : Entry → List Entry
  | .file _ _ => []
  | .dir _ _ ch => ch

/-- The part of `QFileInfo` the task uses. `absolutePath` is the directory that
contains the entry, `fileName` its name in that directory. -/
structure QFileInfo where
  absolutePath : String
  fileName : String
  isFile : Bool
  isDir : Bool
  exists_ : Bool
deriving DecidableEq

/-- The default-constructed `QFileInfo()`: refers to nothing. -/
def QFileInfo.null : QFileInfo := ⟨"", "", false, false, false⟩

/-- Source `QFileInfo::absoluteFilePath()`: directory and file name. -/
def QFileInfo.absoluteFilePath (i : QFileInfo) : String :=
  i.absolutePath ++ "/" ++ i.fileName

/-- The `QFileInfo` of an entry listed in directory `dir`. -/
def Entry.info (dir : String) : Entry → QFileInfo
  | .file n _ => ⟨dir, n, true, false, true⟩
  | .dir n _ _ => ⟨dir, n, false, true, true⟩

/-- Order of `QDir::DirsLast` with the default sort key `QDir::Name`: an entry
that is not a directory comes before a directory, otherwise names decide. -/
def dirsLastLE (a b : Entry) : Bool :=
  if a.isDir != b.isDir then !a.isDir else decide (a.name ≤ b.name)

/-- The listing `QDir(dir).entryInfoList(NoDotAndDotDot | Dirs | Files, DirsLast)` on the
content of a directory: the filter has no `QDir::Hidden`, so the entries that
are not hidden, sorted by `dirsLastLE`. -/
def entryInfoList (entries : List Entry) : List Entry :=
  (entries.filter (fun e => !e.isHidden)).mergeSort dirsLastLE

/-- A range-`for` loop whose body may `return` a value (`some r`); `after` is
the value returned by the statement that follows the loop. -/
def forReturn {α β : Type} (body : α → Option β) (after : β) : List α → β
  | [] => after
  | x :: rest =>
    match body x with
    | some r => r
    | none => forReturn body after rest

/-- Source `findRecursive(dir, name)`, where `entries` is the content of `dir`:
the first regular file named `name` in the listing, at any depth. -/
def findRecursive (dir : String) (entries : List Entry) (name : String) : QFileInfo :=
  forReturn (fun e =>
    let info := e.1.info dir
    if info.isFile && info.fileName == name then
      some info
    else if info.isDir then
      let res := findRecursive info.absoluteFilePath e.1.children name
      if res.isFile && res.exists_ then some res else none
    else none) QFileInfo.null (entryInfoList entries).attach
termination_by sizeOf entries
decreasing_by
  have hmem : e.1 ∈ entries := (List.mem_filter.mp (List.mem_mergeSort.mp e.2)).1
  have h1 := List.sizeOf_lt_of_mem hmem
  have h2 : ∀ x : Entry, sizeOf x.children < sizeOf x := by
    intro x
    cases x with
    | file n hid => cases n; simp [Entry.children]
    | dir n hid ch => simp [Entry.children]
  have h3 := h2 e.1
  omega

mutual
/-- All regular files at or below an entry of `dir`, hidden ones included. -/
def Entry.filesUnder (dir : String) : Entry → List QFileInfo
  | .file n _ => [⟨dir, n, true, false, true⟩]
  | .dir n _ ch => filesIn (dir ++ "/" ++ n) ch
/-- All regular files, at any depth, of the tree `entries` rooted at `dir`,
hidden ones and those below hidden directories included. -/
def filesIn (dir : String) : List Entry → List QFileInfo
  | [] => []
  | e :: es => e.filesUnder dir ++ filesIn dir es
end

mutual
/-- The visible regular files at or below an entry of `dir`: none when the
entry is hidden. -/
def Entry.visibleFilesUnder (dir : String) : Entry → List QFileInfo
  | .file n h => if h then [] else [⟨dir, n, true, false, true⟩]
  | .dir n h ch => if h then [] else visibleFilesIn (dir ++ "/" ++ n) ch
/-- The visible regular files of the tree `entries` rooted at `dir`: those that
are not hidden and that no hidden directory lies above. -/
def visibleFilesIn (dir : String) : List Entry → List QFileInfo
  | [] => []
  | e :: es => e.visibleFilesUnder dir ++ visibleFilesIn dir es
end

/-! ## Collaborators of the task -/

/-- Source `tr(text)`: the user-visible text; the source text itself. -/
def tr (text : String) : String := text

/-- Source `QDir(path).absolutePath()` for an absolute path. -/
def QDir.absolutePath (path : String) : String := path

/-- Source `FS::PathCombine(a, b)`. -/
def FS.PathCombine (a b : String) : String := a ++ "/" ++ b

/-- The parts of the source `QUrl` that `executeTask` reads. -/
structure QUrl where
  isLocalFile : Bool
  toLocalFile : String
  toString : String
  host : String
  path : String

/-- Modelled from the spec: the `Curse::File` stub of `PackManifest.h`, a
(project, file) identifier pair. -/
structure Curse.File where
  projectId : Int
  fileId : Int
deriving DecidableEq

/-- Modelled from the spec: the `Curse::Manifest` of `PackManifest.h`, reduced to
the fields the task reads: `minecraft.version` and `files`. -/
structure Curse.Manifest where
  minecraft_version : String
  files : List Curse.File

/-- Modelled from the spec: one element of `FileResolvingTask::getResults()`,
with the two fields the task logs. -/
structure Curse.FileResult where
  fileName : String
  url : String

/-- Behaviour of everything the task calls and does not implement itself. -/
structure Env where
  /-- Value of `ENV.metacache()->resolveEntry("general", path)->getFullPath()`. -/
  cacheFullPath : String → String
  /-- Value of `m_target->getStagedInstancePath()`. -/
  stagedInstancePath : String
  /-- Value of `m_extractFuture.result()`. -/
  extractResult : List String
  /-- Content of the directory at an absolute path, after extraction. -/
  tree : String → List Entry
  /-- Result of `Curse::loadManifest(pack, path)`: the manifest, or the `cause()` of the
  `JSONValidationError` it throws. -/
  loadManifest : String → Except String Curse.Manifest
  /-- Value of `m_curseResolver->getResults()`. -/
  resolverResults : List Curse.FileResult
  /-- Value of `m_target->commitStagedInstance(staging, root, name, group)`. -/
  commitStagedInstance : String → String → String → String → Bool
  /-- Value of `instance.iconKey()` for the instance rooted at a directory. -/
  iconKey : String → String
  /-- Value of `QFile::exists(path)`. -/
  fileExists : String → Bool
  /-- Value of `ENV.icons()->iconFileExists(key)`. -/
  iconFileExists : String → Bool

/-- A call the task makes on a collaborator or on its `Task` base class. -/
inductive Event where
  | setStatus (text : String)
  | setProgress (current total : Int)
  | netJobStart (url : String) (target : String)
  | getStagedInstancePath
  | extractDir (archive target : String)
  | destroyStagingPath (path : String)
  | commitStagedInstance (stagingPath contentRoot name group : String)
  | loadManifest (path : String)
  | iniSettingsObject (path : String)
  | registerSetting (key defaultValue : String)
  | setSetting (key value : String)
  | setIntendedVersionId (version : String)
  | resetTimePlayed
  | setName (name : String)
  | setIconKey (key : String)
  | deleteIcon (key : String)
  | installIcons (paths : List String)
  | resolverStart (files : List Curse.File)
  | qDebug (items : List String)
  | emitFailed (reason : String)
  | emitSucceeded
deriving DecidableEq

/-- The call is `emitFailed`. -/
def Event.isFailed : Event → Bool
  | .emitFailed _ => true
  | _ => false

/-- The call is a terminal notification of the task. The task of this file has
two: `emitFailed` and `emitSucceeded`. -/
def Event.isTerminal : Event → Bool
  | .emitFailed _ => true
  | .emitSucceeded => true
  | _ => false

/-- The call is `destroyStagingPath`. -/
def Event.isDestroy : Event → Bool
  | .destroyStagingPath _ => true
  | _ => false

/-- The call is `commitStagedInstance`. -/
def Event.isCommit : Event → Bool
  | .commitStagedInstance _ _ _ _ => true
  | _ => false

/-- The call belongs to the curated path: loading the manifest or starting the
dependency resolver. -/
def Event.isCurse : Event → Bool
  | .loadManifest _ => true
  | .resolverStart _ => true
  | _ => false

/-! ## The task -/

/-- Data members of `InstanceImportTask` (collaborator handles are in `Env`).
`m_curseResolver` holds the files the live resolver was constructed with, and
`m_filesNetJob` whether the download job exists. -/
structure InstanceImportTask where
  m_filesNetJob : Bool
  m_curseResolver : Option (List Curse.File)
  m_sourceUrl : QUrl
  m_archivePath : String
  m_downloadRequired : Bool
  m_packRoot : String
  m_instName : String
  m_instIcon : String
  m_instGroup : String
  m_stagingPath : String

namespace InstanceImportTask

/-- The constructor. -/
def new (sourceUrl : QUrl) (instName instIcon instGroup : String) : InstanceImportTask :=
  { m_filesNetJob := false, m_curseResolver := none, m_sourceUrl := sourceUrl,
    m_archivePath := "", m_downloadRequired := false, m_packRoot := "",
    m_instName := instName, m_instIcon := instIcon, m_instGroup := instGroup,
    m_stagingPath := "" }

/-- Method `extractAndTweak()`: acquire the staging path and start the extraction. -/
def extractAndTweak (env : Env) (t : InstanceImportTask) : InstanceImportTask × List Event :=
  let t1 := { t with m_stagingPath := env.stagedInstancePath }
  (t1, [.setStatus (tr "Extracting modpack"),
        .getStagedInstancePath,
        .qDebug ["Attempting to create instance from", t1.m_archivePath],
        .extractDir t1.m_archivePath (QDir.absolutePath t1.m_stagingPath)])

/-- Method `executeTask()`: extract a local archive, download a remote one first. -/
def executeTask (env : Env) (t : InstanceImportTask) : InstanceImportTask × List Event :=
  if t.m_sourceUrl.isLocalFile then
    extractAndTweak env { t with m_archivePath := t.m_sourceUrl.toLocalFile }
  else
    let path := t.m_sourceUrl.host ++ "/" ++ t.m_sourceUrl.path
    ({ t with m_downloadRequired := true, m_filesNetJob := true,
              m_archivePath := env.cacheFullPath path },
     [.setStatus (tr "Downloading modpack:\n" ++ t.m_sourceUrl.toString),
      .netJobStart t.m_sourceUrl.toString (env.cacheFullPath path)])

/-- Slot `downloadSucceeded()`. -/
def downloadSucceeded (env : Env) (t : InstanceImportTask) : InstanceImportTask × List Event :=
  extractAndTweak env t

/-- Slot `downloadFailed(reason)`. -/
def downloadFailed (reason : String) (t : InstanceImportTask) : InstanceImportTask × List Event :=
  (t, [.emitFailed reason])

/-- Slot `downloadProgressChanged(current, total)`; `current / 2` of two `qint64`
truncates. -/
def downloadProgressChanged (current total : Int) (t : InstanceImportTask) :
    InstanceImportTask × List Event :=
  (t, [.setProgress (Int.tdiv current 2) total])

/-- Method `processCurse(manifest)`. -/
def processCurse (env : Env) (manifest : QFileInfo) (t : InstanceImportTask) :
    InstanceImportTask × List Event :=
  match env.loadManifest manifest.absoluteFilePath with
  | .error cause =>
    (t, [.loadManifest manifest.absoluteFilePath,
         .emitFailed (tr "Could not understand curse manifest:\n" ++ cause)])
  | .ok pack =>
    let t1 := { t with m_packRoot := manifest.absolutePath }
    let configPath := FS.PathCombine t1.m_packRoot "instance.cfg"
    ({ t1 with m_curseResolver := some pack.files },
     [.loadManifest manifest.absoluteFilePath,
      .iniSettingsObject configPath,
      .registerSetting "InstanceType" "Legacy",
      .setSetting "InstanceType" "OneSix",
      .setIntendedVersionId pack.minecraft_version,
      .setName t1.m_instName,
      .setIconKey t1.m_instIcon,
      .resolverStart pack.files])

/-- Slot `curseResolvingFailed(reason)`. -/
def curseResolvingFailed (reason : String) (t : InstanceImportTask) :
    InstanceImportTask × List Event :=
  ({ t with m_curseResolver := none },
   [.destroyStagingPath t.m_stagingPath,
    .emitFailed (tr "Unable to resolve Curse mod IDs:\n" ++ reason)])

/-- Slot `curseResolvingSucceeded()`. -/
def curseResolvingSucceeded (env : Env) (t : InstanceImportTask) :
    InstanceImportTask × List Event :=
  let logged := env.resolverResults.map (fun result => Event.qDebug [result.fileName, " = ", result.url])
  let t1 := { t with m_curseResolver := none }
  if !env.commitStagedInstance t1.m_stagingPath t1.m_packRoot t1.m_instName t1.m_instGroup then
    (t1, logged ++
      [.commitStagedInstance t1.m_stagingPath t1.m_packRoot t1.m_instName t1.m_instGroup,
       .destroyStagingPath t1.m_stagingPath,
       .emitFailed (tr "Unable to commit instance")])
  else
    (t1, logged ++
      [.commitStagedInstance t1.m_stagingPath t1.m_packRoot t1.m_instName t1.m_instGroup,
       .emitSucceeded])

/-- The icon block of `processMultiMC`: the user's icon if one was given,
otherwise the icon of the pack, installed when its image file exists. -/
def importIcon (env : Env) (actualDir : String) (t : InstanceImportTask) :
    InstanceImportTask × List Event :=
  if t.m_instIcon != "default" then
    (t, [.setIconKey t.m_instIcon])
  else
    let t1 := { t with m_instIcon := env.iconKey actualDir }
    let importIconPath := FS.PathCombine actualDir (t1.m_instIcon ++ ".png")
    if env.fileExists importIconPath then
      (t1, (if env.iconFileExists t1.m_instIcon then [Event.deleteIcon t1.m_instIcon] else []) ++
           [.installIcons [importIconPath]])
    else
      (t1, [])

/-- Method `processMultiMC(config)`. -/
def processMultiMC (env : Env) (config : QFileInfo) (t : InstanceImportTask) :
    InstanceImportTask × List Event :=
  let actualDir := config.absolutePath
  let opened : List Event :=
    [.iniSettingsObject config.absoluteFilePath,
     .registerSetting "InstanceType" "Legacy",
     .resetTimePlayed,
     .setName t.m_instName]
  let (t1, icon) := importIcon env actualDir t
  if !env.commitStagedInstance t1.m_stagingPath actualDir t1.m_instName t1.m_instGroup then
    (t1, opened ++ icon ++
      [.commitStagedInstance t1.m_stagingPath actualDir t1.m_instName t1.m_instGroup,
       .destroyStagingPath t1.m_stagingPath,
       .emitFailed (tr "Unable to commit instance")])
  else
    (t1, opened ++ icon ++
      [.commitStagedInstance t1.m_stagingPath actualDir t1.m_instName t1.m_instGroup,
       .emitSucceeded])

/-- Slot `extractFinished()`. -/
def extractFinished (env : Env) (t : InstanceImportTask) : InstanceImportTask × List Event :=
  if env.extractResult.isEmpty then
    (t, [.destroyStagingPath t.m_stagingPath,
         .emitFailed (tr "Failed to extract modpack")])
  else
    let extractDir := QDir.absolutePath t.m_stagingPath
    let instanceCfgFile := findRecursive extractDir (env.tree extractDir) "instance.cfg"
    let curseJson := findRecursive extractDir (env.tree extractDir) "manifest.json"
    if instanceCfgFile.isFile then
      processMultiMC env instanceCfgFile t
    else if curseJson.isFile then
      processCurse env curseJson t
    else
      (t, [.destroyStagingPath t.m_stagingPath,
           .emitFailed (tr "Archive does not contain a recognized modpack type.")])

/-- Slot `extractAborted()`. -/
def extractAborted (t : InstanceImportTask) : InstanceImportTask × List Event :=
  (t, [.destroyStagingPath t.m_stagingPath,
       .emitFailed (tr "Instance import has been aborted.")])

end InstanceImportTask

/-- A notification delivered to one of the slots the task connected. -/
inductive Signal where
  | netJobSucceeded
  | netJobProgress (current total : Int)
  | netJobFailed (reason : String)
  | extractFinished
  | extractCanceled
  | resolverSucceeded
  | resolverFailed (reason : String)

/-- The slot connected to each notification. -/
def InstanceImportTask.deliver (env : Env) (t : InstanceImportTask) :
    Signal → InstanceImportTask × List Event
  | .netJobSucceeded => t.downloadSucceeded env
  | .netJobProgress current total => t.downloadProgressChanged current total
  | .netJobFailed reason => t.downloadFailed reason
  | .extractFinished => t.extractFinished env
  | .extractCanceled => t.extractAborted
  | .resolverSucceeded => t.curseResolvingSucceeded env
  | .resolverFailed reason => t.curseResolvingFailed reason

/-- Deliver notifications in order, collecting the calls made. -/
def InstanceImportTask.deliverAll (env : Env) :
    InstanceImportTask × List Event → List Signal → InstanceImportTask × List Event
  | acc, [] => acc
  | (t, evs), s :: rest =>
    let (t1, evs1) := t.deliver env s
    InstanceImportTask.deliverAll env (t1, evs ++ evs1) rest

/-- A run of the task: `executeTask()` followed by the given notifications. -/
def InstanceImportTask.run (env : Env) (t : InstanceImportTask) (signals : List Signal) :
    InstanceImportTask × List Event :=
  InstanceImportTask.deliverAll env (t.executeTask env) signals

/-! ## Concrete imports used to exercise the slots -/

namespace Example

/-- A local archive `/tmp/pack.zip`. -/
def localUrl : QUrl :=
  ⟨true, "/tmp/pack.zip", "file:///tmp/pack.zip", "", "/tmp/pack.zip"⟩

/-- The task importing `localUrl` as instance `Pack` in group `Packs`, as constructed. -/
def fresh : InstanceImportTask :=
  InstanceImportTask.new localUrl "Pack" "default" "Packs"

/-- The same task after `extractAndTweak` acquired the staging path `/staging`. -/
def staged : InstanceImportTask :=
  { m_filesNetJob := false, m_curseResolver := none, m_sourceUrl := localUrl,
    m_archivePath := "/tmp/pack.zip", m_downloadRequired := false, m_packRoot := "",
    m_instName := "Pack", m_instIcon := "default", m_instGroup := "Packs",
    m_stagingPath := "/staging" }

/-- Collaborators of an import staged at `/staging`: the extraction reported
`extracted` and left `tree` in the staging directory, loading a manifest gives
`manifest`, and the target provider answers `commitOk` to a commit. -/
def env (extracted : List String) (tree : List Entry)
    (manifest : Except String Curse.Manifest) (commitOk : Bool) : Env :=
  { cacheFullPath := fun p => "/cache/" ++ p,
    stagedInstancePath := "/staging",
    extractResult := extracted,
    tree := fun p => if p = "/staging" then tree else [],
    loadManifest := fun _ => manifest,
    resolverResults := [⟨"mod.jar", "https://example.org/mod.jar"⟩],
    commitStagedInstance := fun _ _ _ _ => commitOk,
    iconKey := fun _ => "flame",
    fileExists := fun _ => false,
    iconFileExists := fun _ => false }

/-- A curated pack whose `manifest.json` fails validation with cause `bad`. -/
def envBadManifest : Env :=
  env ["manifest.json"] [Entry.file "manifest.json" false] (.error "bad") true

/-- A curated pack with a valid manifest of one mod. -/
def envCurse (commitOk : Bool) : Env :=
  env ["manifest.json"] [Entry.file "manifest.json" false] (.ok ⟨"1.12.2", [⟨1, 2⟩]⟩) commitOk

/-- An archive holding both markers, the curated one at the top. -/
def envBoth : Env :=
  env ["manifest.json", "pack/instance.cfg"]
    [Entry.file "manifest.json" false, Entry.dir "pack" false [Entry.file "instance.cfg" false]]
    (.ok ⟨"1.12.2", []⟩) true

/-- An archive holding both markers, the native one below the hidden directory
`.minecraft`. -/
def envHiddenNative : Env :=
  env ["manifest.json", ".minecraft/instance.cfg"]
    [Entry.dir ".minecraft" true [Entry.file "instance.cfg" false],
     Entry.file "manifest.json" false]
    (.ok ⟨"1.12.2", []⟩) true

/-- An archive without a marker file. -/
def envNoMarker : Env :=
  env ["readme.txt"] [Entry.file "readme.txt" false] (.error "unused") true

/-- An extraction that produced nothing. -/
def envEmpty : Env :=
  env [] [] (.error "unused") true

end Example

/-! ## The loop and the directory listing -/

theorem forReturn_map {α β γ : Type} (f : α → β) (g : β → Option γ) (after : γ) (l : List α) :
    forReturn (fun x => g (f x)) after l = forReturn g after (l.map f) := by
  induction l with
  | nil => rfl
  | cons x rest ih =>
    simp only [forReturn, List.map_cons]
    cases g (f x) with
    | none => simpa using ih
    | some r => rfl

theorem forReturn_cases {α β : Type} (body : α → Option β) (after : β) (l : List α) :
    (∃ x ∈ l, body x = some (forReturn body after l)) ∨
      ((∀ x ∈ l, body x = none) ∧ forReturn body after l = after) := by
  induction l with
  | nil => right; simp [forReturn]
  | cons x rest ih =>
    cases hx : body x with
    | some r => left; exact ⟨x, by simp, by simp [forReturn, hx]⟩
    | none =>
      have hstep : forReturn body after (x :: rest) = forReturn body after rest := by
        simp [forReturn, hx]
      rw [hstep]
      rcases ih with ⟨y, hy, hb⟩ | ⟨hall, hr⟩
      · left; exact ⟨y, by simp [hy], hb⟩
      · right
        refine ⟨?_, hr⟩
        intro y hy
        rcases List.mem_cons.mp hy with rfl | hy
        · exact hx
        · exact hall y hy

theorem mem_entryInfoList {e : Entry} {entries : List Entry} :
    e ∈ entryInfoList entries ↔ e ∈ entries ∧ e.isHidden = false := by
  unfold entryInfoList
  rw [List.mem_mergeSort, List.mem_filter]
  simp

theorem dirsLastLE_trans (a b c : Entry) (hab : dirsLastLE a b = true) (hbc : dirsLastLE b c = true) :
    dirsLastLE a c = true := by
  unfold dirsLastLE at *
  cases ha : a.isDir <;> cases hb : b.isDir <;> cases hc : c.isDir <;>
    simp [ha, hb, hc] at hab hbc ⊢
  all_goals exact le_trans hab hbc

theorem dirsLastLE_total (a b : Entry) : (dirsLastLE a b || dirsLastLE b a) = true := by
  unfold dirsLastLE
  cases ha : a.isDir <;> cases hb : b.isDir <;> simp
  all_goals exact le_total _ _

theorem entryInfoList_sorted (entries : List Entry) :
    List.Pairwise (fun a b => dirsLastLE a b = true) (entryInfoList entries) := by
  unfold entryInfoList
  exact List.sorted_mergeSort dirsLastLE_trans dirsLastLE_total _

/-- The loop body of `findRecursive`, on an entry of the listing of `dir`. -/
theorem findRecursive_unfold (dir : String) (entries : List Entry) (name : String) :
    findRecursive dir entries name =
      forReturn (fun e : Entry =>
        if ((e.info dir).isFile && (e.info dir).fileName == name) = true then some (e.info dir)
        else if (e.info dir).isDir = true then
          if ((findRecursive (e.info dir).absoluteFilePath e.children name).isFile &&
              (findRecursive (e.info dir).absoluteFilePath e.children name).exists_) = true
          then some (findRecursive (e.info dir).absoluteFilePath e.children name) else none
        else none) QFileInfo.null (entryInfoList entries) := by
  rw [findRecursive]
  have h := forReturn_map (Subtype.val : { x // x ∈ entryInfoList entries } → Entry)
    (fun e : Entry =>
        if ((e.info dir).isFile && (e.info dir).fileName == name) = true then some (e.info dir)
        else if (e.info dir).isDir = true then
          if ((findRecursive (e.info dir).absoluteFilePath e.children name).isFile &&
              (findRecursive (e.info dir).absoluteFilePath e.children name).exists_) = true
          then some (findRecursive (e.info dir).absoluteFilePath e.children name) else none
        else none) QFileInfo.null (entryInfoList entries).attach
  rw [List.attach_map_subtype_val] at h
  exact h

theorem mem_filesIn {dir : String} {f : QFileInfo} {entries : List Entry} :
    f ∈ filesIn dir entries ↔ ∃ e ∈ entries, f ∈ e.filesUnder dir := by
  induction entries with
  | nil => simp [filesIn]
  | cons e es ih => simp [filesIn, ih]

theorem mem_visibleFilesIn {dir : String} {f : QFileInfo} {entries : List Entry} :
    f ∈ visibleFilesIn dir entries ↔ ∃ e ∈ entries, f ∈ e.visibleFilesUnder dir := by
  induction entries with
  | nil => simp [visibleFilesIn]
  | cons e es ih => simp [visibleFilesIn, ih]

theorem visibleFilesIn_subset_aux (dir : String) (entries : List Entry) (name : String) :
    ∀ f, f ∈ visibleFilesIn dir entries → f ∈ filesIn dir entries := by
  induction dir, entries, name using findRecursive.induct with
  | case1 dir entries name ih =>
    intro f h
    obtain ⟨e, he, hfe⟩ := mem_visibleFilesIn.mp h
    refine mem_filesIn.mpr ⟨e, he, ?_⟩
    cases e with
    | file m hid =>
      cases hid with
      | true => simp [Entry.visibleFilesUnder] at hfe
      | false => simpa [Entry.visibleFilesUnder, Entry.filesUnder] using hfe
    | dir m hid ch =>
      cases hid with
      | true => simp [Entry.visibleFilesUnder] at hfe
      | false =>
        have ihe := ih ⟨Entry.dir m false ch, mem_entryInfoList.mpr ⟨he, rfl⟩⟩
        simp only [Entry.info, Entry.children, QFileInfo.absoluteFilePath] at ihe
        simp only [Entry.visibleFilesUnder, Bool.false_eq_true, if_false] at hfe
        simpa [Entry.filesUnder] using ihe f hfe

/-- A visible file of the tree is one of its files. -/
theorem visibleFilesIn_subset (dir : String) (entries : List Entry) (f : QFileInfo)
    (h : f ∈ visibleFilesIn dir entries) : f ∈ filesIn dir entries :=
  visibleFilesIn_subset_aux dir entries "" f h

/-- What the loop body returns on an entry: only a regular file named `name`,
found among the visible files of the tree below that entry. -/
theorem findRecursive_sound (dir : String) (entries : List Entry) (name : String) :
    findRecursive dir entries name = QFileInfo.null ∨
      (findRecursive dir entries name ∈ visibleFilesIn dir entries ∧
        (findRecursive dir entries name).fileName = name ∧
        (findRecursive dir entries name).isFile = true ∧
        (findRecursive dir entries name).exists_ = true) := by
  induction dir, entries, name using findRecursive.induct with
  | case1 dir entries name ih =>
    have hu := findRecursive_unfold dir entries name
    rcases forReturn_cases (fun e : Entry =>
        if ((e.info dir).isFile && (e.info dir).fileName == name) = true then some (e.info dir)
        else if (e.info dir).isDir = true then
          if ((findRecursive (e.info dir).absoluteFilePath e.children name).isFile &&
              (findRecursive (e.info dir).absoluteFilePath e.children name).exists_) = true
          then some (findRecursive (e.info dir).absoluteFilePath e.children name) else none
        else none) QFileInfo.null (entryInfoList entries) with ⟨x, hx, hb⟩ | ⟨_, hr⟩
    · right
      rw [← hu] at hb
      obtain ⟨hxe, hvis⟩ := mem_entryInfoList.mp hx
      have ihx := ih ⟨x, hx⟩
      generalize findRecursive dir entries name = r at hb ⊢
      cases x with
      | file m hid =>
        simp only [Entry.isHidden] at hvis
        subst hvis
        simp only [Entry.info, Bool.true_and, beq_iff_eq] at hb
        split at hb
        · rename_i hm
          simp only [Option.some.injEq] at hb
          subst hb
          refine ⟨mem_visibleFilesIn.mpr ⟨Entry.file m false, hxe,
            by simp [Entry.visibleFilesUnder]⟩, hm, rfl, rfl⟩
        · simp at hb
      | dir m hid ch =>
        simp only [Entry.isHidden] at hvis
        subst hvis
        simp only [Entry.info, Entry.children, QFileInfo.absoluteFilePath, Bool.false_and,
          Bool.false_eq_true, if_false, if_true] at hb ihx
        split at hb
        · simp only [Option.some.injEq] at hb
          rw [hb] at ihx
          rename_i hg
          rw [hb] at hg
          rcases ihx with h0 | ⟨h1, h2, h3, h4⟩
          · rw [h0] at hg
            simp [QFileInfo.null] at hg
          · exact ⟨mem_visibleFilesIn.mpr ⟨Entry.dir m false ch, hxe,
              by simpa [Entry.visibleFilesUnder] using h1⟩, h2, h3, h4⟩
        · simp at hb
    · left
      rw [hu]
      exact hr

theorem findRecursive_complete (dir : String) (entries : List Entry) (name : String)
    (h : ∃ f ∈ visibleFilesIn dir entries, f.fileName = name) :
    (findRecursive dir entries name).isFile = true := by
  induction dir, entries, name using findRecursive.induct with
  | case1 dir entries name ih =>
    obtain ⟨f, hf, hn⟩ := h
    obtain ⟨e, he, hfe⟩ := mem_visibleFilesIn.mp hf
    have hu := findRecursive_unfold dir entries name
    rcases forReturn_cases (fun e : Entry =>
        if ((e.info dir).isFile && (e.info dir).fileName == name) = true then some (e.info dir)
        else if (e.info dir).isDir = true then
          if ((findRecursive (e.info dir).absoluteFilePath e.children name).isFile &&
              (findRecursive (e.info dir).absoluteFilePath e.children name).exists_) = true
          then some (findRecursive (e.info dir).absoluteFilePath e.children name) else none
        else none) QFileInfo.null (entryInfoList entries) with ⟨x, _, hb⟩ | ⟨hall, _⟩
    · rw [← hu] at hb
      generalize findRecursive dir entries name = r at hb ⊢
      cases x with
      | file m hid =>
        simp only [Entry.info, Bool.true_and, beq_iff_eq] at hb
        split at hb
        · simp only [Option.some.injEq] at hb
          subst hb
          rfl
        · simp at hb
      | dir m hid ch =>
        simp only [Entry.info, Entry.children, QFileInfo.absoluteFilePath, Bool.false_and,
          Bool.false_eq_true, if_false, if_true] at hb
        split at hb
        · rename_i hg
          simp only [Option.some.injEq] at hb
          rw [hb] at hg
          simp only [Bool.and_eq_true] at hg
          exact hg.1
        · simp at hb
    · exfalso
      have hvis : e.isHidden = false := by
        cases e with
        | file m hid =>
          cases hid with
          | true => simp [Entry.visibleFilesUnder] at hfe
          | false => rfl
        | dir m hid ch =>
          cases hid with
          | true => simp [Entry.visibleFilesUnder] at hfe
          | false => rfl
      have hnone := hall e (mem_entryInfoList.mpr ⟨he, hvis⟩)
      have ihe := ih ⟨e, mem_entryInfoList.mpr ⟨he, hvis⟩⟩
      cases e with
      | file m hid =>
        simp only [Entry.isHidden] at hvis
        subst hvis
        simp only [Entry.visibleFilesUnder, Bool.false_eq_true, if_false,
          List.mem_singleton] at hfe
        subst hfe
        simp only at hn
        simp [Entry.info, hn] at hnone
      | dir m hid ch =>
        simp only [Entry.isHidden] at hvis
        subst hvis
        simp only [Entry.visibleFilesUnder, Bool.false_eq_true, if_false] at hfe
        simp only [Entry.info, Entry.children, QFileInfo.absoluteFilePath] at ihe hnone
        have h1 := ihe ⟨f, hfe, hn⟩
        rcases findRecursive_sound (dir ++ "/" ++ m) ch name with h0 | ⟨_, _, _, h4⟩
        · rw [h0] at h1
          simp [QFileInfo.null] at h1
        · simp [h1, h4] at hnone

theorem forReturn_file_first (dir name : String) (body : Entry → Option QFileInfo)
    (hbody : ∀ m hid, body (Entry.file m hid) =
      if m = name then some ⟨dir, m, true, false, true⟩ else none)
    (l : List Entry) (hs : List.Pairwise (fun a b => dirsLastLE a b = true) l)
    (hmem : Entry.file name false ∈ l) :
    forReturn body QFileInfo.null l = ⟨dir, name, true, false, true⟩ := by
  induction l with
  | nil => simp at hmem
  | cons x rest ih =>
    rw [List.pairwise_cons] at hs
    cases x with
    | file m hid =>
      by_cases hm : m = name
      · simp [forReturn, hbody, hm]
      · have hrest : Entry.file name false ∈ rest := by
          rcases List.mem_cons.mp hmem with h | h
          · injection h with h' _
            exact absurd h'.symm hm
          · exact h
        simp only [forReturn, hbody, hm, if_false]
        exact ih hs.2 hrest
    | dir m hid ch =>
      exfalso
      have hrest : Entry.file name false ∈ rest := by
        rcases List.mem_cons.mp hmem with h | h
        · cases h
        · exact h
      have := hs.1 _ hrest
      simp [dirsLastLE, Entry.isDir] at this

/-- A visible file named `name` directly in `dir` is what the search of `dir`
returns. -/
theorem findRecursive_direct (dir : String) (entries : List Entry) (name : String)
    (h : Entry.file name false ∈ entries) :
    findRecursive dir entries name = ⟨dir, name, true, false, true⟩ := by
  rw [findRecursive_unfold]
  apply forReturn_file_first dir name _ _ _ (entryInfoList_sorted entries)
    (mem_entryInfoList.mpr ⟨h, rfl⟩)
  intro m hid
  by_cases hm : m = name <;> simp [Entry.info, hm]

theorem findRecursive_isFile_iff (dir : String) (entries : List Entry) (name : String) :
    (findRecursive dir entries name).isFile = true ↔
      ∃ f ∈ visibleFilesIn dir entries, f.fileName = name := by
  constructor
  · intro h
    rcases findRecursive_sound dir entries name with h0 | ⟨h1, h2, _, _⟩
    · rw [h0] at h
      simp [QFileInfo.null] at h
    · exact ⟨_, h1, h2⟩
  · exact findRecursive_complete dir entries name

/-- Without a file of that name anywhere in the tree, the search finds nothing. -/
theorem findRecursive_not_isFile (dir : String) (entries : List Entry) (name : String)
    (h : ¬ ∃ f ∈ filesIn dir entries, f.fileName = name) :
    ¬ (findRecursive dir entries name).isFile = true := by
  intro hf
  obtain ⟨f, hfv, hn⟩ := (findRecursive_isFile_iff dir entries name).mp hf
  exact h ⟨f, visibleFilesIn_subset dir entries f hfv, hn⟩

/-! ## The marker search -/

/-- C10, amended: `findRecursive` is a total function of a finite tree; it
returns an existing file exactly when the tree holds a visible file named
`name`, that is one that is not hidden and lies below no hidden directory; a
returned file is named `name` and is one of the visible files of the tree; and
a file named `name` that is directly in the searched directory and not hidden
is the result, whatever the subdirectories hold. -/
theorem findRecursive_finds_visible_marker (dir : String) (entries : List Entry)
    (name : String) :
    (((findRecursive dir entries name).isFile = true ∧
        (findRecursive dir entries name).exists_ = true) ↔
      ∃ f ∈ visibleFilesIn dir entries, f.fileName = name) ∧
    ((findRecursive dir entries name).isFile = true →
      findRecursive dir entries name ∈ visibleFilesIn dir entries ∧
        findRecursive dir entries name ∈ filesIn dir entries ∧
        (findRecursive dir entries name).fileName = name) ∧
    (Entry.file name false ∈ entries →
      findRecursive dir entries name = ⟨dir, name, true, false, true⟩) := by
  refine ⟨⟨fun h => (findRecursive_isFile_iff dir entries name).mp h.1, fun h => ?_⟩, fun h => ?_,
    findRecursive_direct dir entries name⟩
  · have hf := findRecursive_complete dir entries name h
    rcases findRecursive_sound dir entries name with h0 | ⟨_, _, _, h4⟩
    · rw [h0] at hf
      simp [QFileInfo.null] at hf
    · exact ⟨hf, h4⟩
  · rcases findRecursive_sound dir entries name with h0 | ⟨h1, h2, _, _⟩
    · rw [h0] at h
      simp [QFileInfo.null] at h
    · exact ⟨h1, visibleFilesIn_subset dir entries _ h1, h2⟩

/-- C10, amended, at a tree where the marker is both in a subdirectory listed
before it on disk and directly in the root: the root file is returned. -/
theorem findRecursive_finds_visible_marker_witness :
    findRecursive "/staging"
        [Entry.dir "pack" false [Entry.file "instance.cfg" false],
         Entry.file "instance.cfg" false]
        "instance.cfg" =
      ⟨"/staging", "instance.cfg", true, false, true⟩ :=
  (findRecursive_finds_visible_marker "/staging"
    [Entry.dir "pack" false [Entry.file "instance.cfg" false],
     Entry.file "instance.cfg" false]
    "instance.cfg").2.2 (by simp)

/-- C10 as stated fails: the tree holds `instance.cfg` below the hidden
directory `.minecraft`, and the search returns `QFileInfo()`, not a file. -/
theorem findRecursive_misses_hidden :
    (∃ f ∈ filesIn "/staging" [Entry.dir ".minecraft" true [Entry.file "instance.cfg" false]],
      f.fileName = "instance.cfg") ∧
    findRecursive "/staging" [Entry.dir ".minecraft" true [Entry.file "instance.cfg" false]]
      "instance.cfg" = QFileInfo.null ∧
    (findRecursive "/staging" [Entry.dir ".minecraft" true [Entry.file "instance.cfg" false]]
      "instance.cfg").isFile = false := by
  have hnull : findRecursive "/staging"
      [Entry.dir ".minecraft" true [Entry.file "instance.cfg" false]] "instance.cfg" =
      QFileInfo.null := by
    rcases findRecursive_sound "/staging"
      [Entry.dir ".minecraft" true [Entry.file "instance.cfg" false]] "instance.cfg" with
      h0 | ⟨h1, _, _, _⟩
    · exact h0
    · exact absurd h1 (by decide)
  refine ⟨by decide, hnull, ?_⟩
  rw [hnull]
  rfl

/-! ## Download progress -/

/-- C4: for `0 ≤ current ≤ total`, `downloadProgressChanged(current, total)`
reports exactly `setProgress(current / 2, total)`, the quotient being the
integer quotient and the total unchanged, and twice the reported value is at
most the total. -/
theorem downloadProgressChanged_half (t : InstanceImportTask) (current total : Int)
    (h0 : 0 ≤ current) (h1 : current ≤ total) :
    t.downloadProgressChanged current total = (t, [Event.setProgress (current / 2) total]) ∧
      2 * (current / 2) ≤ total := by
  have hq : Int.tdiv current 2 = current / 2 := Int.tdiv_eq_ediv h0 (by decide)
  refine ⟨?_, by omega⟩
  simp [InstanceImportTask.downloadProgressChanged, hq]

/-- C4 at `current = 7`, `total = 10`: progress `(3, 10)` is reported. -/
theorem downloadProgressChanged_half_witness :
    (InstanceImportTask.new ⟨true, "/tmp/pack.zip", "file:///tmp/pack.zip", "", "/tmp/pack.zip"⟩
        "Pack" "default" "").downloadProgressChanged 7 10 =
      (InstanceImportTask.new ⟨true, "/tmp/pack.zip", "file:///tmp/pack.zip", "", "/tmp/pack.zip"⟩
        "Pack" "default" "", [Event.setProgress (7 / 2) 10]) ∧
      2 * ((7 : Int) / 2) ≤ 10 :=
  downloadProgressChanged_half _ 7 10 (by decide) (by decide)

/-! ## The slots -/

theorem importIcon_spec (env : Env) (actualDir : String) (t : InstanceImportTask) :
    (InstanceImportTask.importIcon env actualDir t).1.m_stagingPath = t.m_stagingPath ∧
    (InstanceImportTask.importIcon env actualDir t).1.m_instName = t.m_instName ∧
    (InstanceImportTask.importIcon env actualDir t).1.m_instGroup = t.m_instGroup ∧
    (InstanceImportTask.importIcon env actualDir t).1.m_curseResolver = t.m_curseResolver ∧
    ∀ e ∈ (InstanceImportTask.importIcon env actualDir t).2,
      e.isCommit = false ∧ e.isDestroy = false ∧ e.isTerminal = false ∧ e.isCurse = false := by
  unfold InstanceImportTask.importIcon
  by_cases h1 : (t.m_instIcon != "default") = true
  · simp [h1, Event.isCommit, Event.isDestroy, Event.isTerminal, Event.isCurse]
  · by_cases h2 : env.fileExists (FS.PathCombine actualDir (env.iconKey actualDir ++ ".png")) = true
    · by_cases h3 : env.iconFileExists (env.iconKey actualDir) = true <;>
        simp [h1, h2, h3, Event.isCommit, Event.isDestroy, Event.isTerminal, Event.isCurse]
    · simp [h1, h2, Event.isCommit, Event.isDestroy, Event.isTerminal, Event.isCurse]

/-- The calls of `processMultiMC` before the commit. -/
theorem processMultiMC_eq (env : Env) (config : QFileInfo) (t : InstanceImportTask) :
    t.processMultiMC env config =
      ((InstanceImportTask.importIcon env config.absolutePath t).1,
       ([Event.iniSettingsObject config.absoluteFilePath,
         Event.registerSetting "InstanceType" "Legacy",
         Event.resetTimePlayed,
         Event.setName t.m_instName] ++
        (InstanceImportTask.importIcon env config.absolutePath t).2) ++
       (Event.commitStagedInstance t.m_stagingPath config.absolutePath t.m_instName t.m_instGroup ::
         if env.commitStagedInstance t.m_stagingPath config.absolutePath t.m_instName t.m_instGroup
         then [Event.emitSucceeded]
         else [Event.destroyStagingPath t.m_stagingPath,
               Event.emitFailed "Unable to commit instance"])) := by
  obtain ⟨h1, h2, h3, _, _⟩ := importIcon_spec env config.absolutePath t
  unfold InstanceImportTask.processMultiMC
  simp only [h1, h2, h3, tr]
  cases env.commitStagedInstance t.m_stagingPath config.absolutePath t.m_instName t.m_instGroup <;>
    simp

theorem processMultiMC_events (env : Env) (config : QFileInfo) (t : InstanceImportTask) :
    ∀ e ∈ (t.processMultiMC env config).2,
      e.isCurse = false ∧ e ≠ Event.emitFailed "Failed to extract modpack" := by
  obtain ⟨_, _, _, _, hicon⟩ := importIcon_spec env config.absolutePath t
  rw [processMultiMC_eq]
  intro e he
  simp only [List.mem_append, List.mem_cons] at he
  rcases he with (he | he) | he | he
  · simp only [List.mem_cons, List.mem_singleton, List.not_mem_nil, or_false] at he
    rcases he with rfl | rfl | rfl | rfl <;> simp [Event.isCurse]
  · obtain ⟨_, _, h3, h4⟩ := hicon e he
    refine ⟨h4, ?_⟩
    rintro rfl
    simp [Event.isTerminal] at h3
  · subst he
    simp [Event.isCurse]
  · revert he
    cases env.commitStagedInstance t.m_stagingPath config.absolutePath t.m_instName t.m_instGroup
    · intro he
      simp only [Bool.false_eq_true, if_false, List.mem_cons, List.mem_singleton,
        List.not_mem_nil, or_false] at he
      rcases he with rfl | rfl <;> simp [Event.isCurse]
    · intro he
      simp only [if_true, List.mem_singleton] at he
      subst he
      simp [Event.isCurse]

theorem manifest_reason_ne (cause : String) :
    "Could not understand curse manifest:\n" ++ cause ≠ "Failed to extract modpack" := by
  intro h
  have h2 := congrArg (fun s => s.data.head?) h
  simp at h2

theorem processCurse_events (env : Env) (manifest : QFileInfo) (t : InstanceImportTask) :
    ∀ e ∈ (t.processCurse env manifest).2,
      e.isCommit = false ∧ e.isDestroy = false ∧
        e ≠ Event.emitFailed "Failed to extract modpack" := by
  unfold InstanceImportTask.processCurse
  cases env.loadManifest manifest.absoluteFilePath with
  | error cause =>
    intro e he
    simp only [List.mem_cons, List.mem_singleton, List.not_mem_nil, or_false] at he
    rcases he with rfl | rfl
    · simp [Event.isCommit, Event.isDestroy]
    · simp [Event.isCommit, Event.isDestroy, tr, manifest_reason_ne]
  | ok pack =>
    intro e he
    simp only [List.mem_cons, List.mem_singleton, List.not_mem_nil, or_false] at he
    rcases he with rfl | rfl | rfl | rfl | rfl | rfl | rfl | rfl <;>
      simp [Event.isCommit, Event.isDestroy]

theorem extractFinished_empty (env : Env) (t : InstanceImportTask) (h : env.extractResult = []) :
    t.extractFinished env =
      (t, [Event.destroyStagingPath t.m_stagingPath,
           Event.emitFailed "Failed to extract modpack"]) := by
  simp [InstanceImportTask.extractFinished, h, tr]

theorem extractFinished_nonempty (env : Env) (t : InstanceImportTask)
    (h : env.extractResult ≠ []) :
    t.extractFinished env =
      if (findRecursive t.m_stagingPath (env.tree t.m_stagingPath) "instance.cfg").isFile = true then
        t.processMultiMC env
          (findRecursive t.m_stagingPath (env.tree t.m_stagingPath) "instance.cfg")
      else if (findRecursive t.m_stagingPath (env.tree t.m_stagingPath) "manifest.json").isFile
          = true then
        t.processCurse env
          (findRecursive t.m_stagingPath (env.tree t.m_stagingPath) "manifest.json")
      else
        (t, [Event.destroyStagingPath t.m_stagingPath,
             Event.emitFailed "Archive does not contain a recognized modpack type."]) := by
  simp [InstanceImportTask.extractFinished, List.isEmpty_iff, h, tr, QDir.absolutePath]

theorem extractFinished_nonempty_reason (env : Env) (t : InstanceImportTask)
    (h : env.extractResult ≠ []) :
    Event.emitFailed "Failed to extract modpack" ∉ (t.extractFinished env).2 := by
  rw [extractFinished_nonempty env t h]
  intro hmem
  split_ifs at hmem
  · exact (processMultiMC_events env _ t _ hmem).2 rfl
  · exact (processCurse_events env _ t _ hmem).2.2 rfl
  · simp at hmem

theorem extractFinished_no_marker (env : Env) (t : InstanceImportTask)
    (hne : env.extractResult ≠ [])
    (hcfg : ¬ ∃ f ∈ filesIn t.m_stagingPath (env.tree t.m_stagingPath), f.fileName = "instance.cfg")
    (hman : ¬ ∃ f ∈ filesIn t.m_stagingPath (env.tree t.m_stagingPath), f.fileName = "manifest.json") :
    t.extractFinished env =
      (t, [Event.destroyStagingPath t.m_stagingPath,
           Event.emitFailed "Archive does not contain a recognized modpack type."]) := by
  rw [extractFinished_nonempty env t hne]
  have h1 := findRecursive_not_isFile _ _ _ hcfg
  have h2 := findRecursive_not_isFile _ _ _ hman
  simp [h1, h2]

theorem extractFinished_curse (env : Env) (t : InstanceImportTask)
    (hne : env.extractResult ≠ [])
    (hcfg : ¬ ∃ f ∈ visibleFilesIn t.m_stagingPath (env.tree t.m_stagingPath),
      f.fileName = "instance.cfg")
    (hman : Entry.file "manifest.json" false ∈ env.tree t.m_stagingPath) :
    t.extractFinished env =
      t.processCurse env ⟨t.m_stagingPath, "manifest.json", true, false, true⟩ := by
  rw [extractFinished_nonempty env t hne]
  rw [← findRecursive_isFile_iff] at hcfg
  rw [findRecursive_direct _ _ _ hman]
  simp [hcfg]

theorem processCurse_error (env : Env) (manifest : QFileInfo) (t : InstanceImportTask)
    (cause : String) (h : env.loadManifest manifest.absoluteFilePath = .error cause) :
    t.processCurse env manifest =
      (t, [Event.loadManifest manifest.absoluteFilePath,
           Event.emitFailed ("Could not understand curse manifest:\n" ++ cause)]) := by
  simp [InstanceImportTask.processCurse, h, tr]

/-! ## Extraction results and format detection -/

/-- C9: an empty extraction result makes `extractFinished` destroy the staging
path and fail with `Failed to extract modpack`, whatever the staged tree holds;
a non-empty result makes it dispatch on the two marker searches and never fail
with that reason; so that reason is emitted exactly when the result is empty. -/
theorem extractFinished_empty_iff_failed (env : Env) (t : InstanceImportTask) :
    (env.extractResult = [] →
      t.extractFinished env =
        (t, [Event.destroyStagingPath t.m_stagingPath,
             Event.emitFailed "Failed to extract modpack"])) ∧
    (env.extractResult ≠ [] →
      Event.emitFailed "Failed to extract modpack" ∉ (t.extractFinished env).2 ∧
      t.extractFinished env =
        if (findRecursive t.m_stagingPath (env.tree t.m_stagingPath) "instance.cfg").isFile
            = true then
          t.processMultiMC env
            (findRecursive t.m_stagingPath (env.tree t.m_stagingPath) "instance.cfg")
        else if (findRecursive t.m_stagingPath (env.tree t.m_stagingPath) "manifest.json").isFile
            = true then
          t.processCurse env
            (findRecursive t.m_stagingPath (env.tree t.m_stagingPath) "manifest.json")
        else
          (t, [Event.destroyStagingPath t.m_stagingPath,
               Event.emitFailed "Archive does not contain a recognized modpack type."])) ∧
    (Event.emitFailed "Failed to extract modpack" ∈ (t.extractFinished env).2 ↔
      env.extractResult = []) := by
  refine ⟨extractFinished_empty env t, fun h =>
    ⟨extractFinished_nonempty_reason env t h, extractFinished_nonempty env t h⟩, ?_⟩
  constructor
  · intro hmem
    by_contra h
    exact extractFinished_nonempty_reason env t h hmem
  · intro h
    rw [extractFinished_empty env t h]
    simp

/-- C9 at an extraction that produced nothing. -/
theorem extractFinished_empty_iff_failed_witness :
    Example.staged.extractFinished Example.envEmpty =
      (Example.staged, [Event.destroyStagingPath "/staging",
                        Event.emitFailed "Failed to extract modpack"]) :=
  (extractFinished_empty_iff_failed Example.envEmpty Example.staged).1 rfl

/-- C8, amended: a non-empty extraction whose tree holds neither marker makes
`extractFinished` destroy the staging path and fail with the reason
`Archive does not contain a recognized modpack type.` (the text ends with a
full stop); these two calls are all it does, so no processing and no commit. -/
theorem extractFinished_unrecognized (env : Env) (t : InstanceImportTask)
    (hne : env.extractResult ≠ [])
    (hcfg : ¬ ∃ f ∈ filesIn t.m_stagingPath (env.tree t.m_stagingPath), f.fileName = "instance.cfg")
    (hman : ¬ ∃ f ∈ filesIn t.m_stagingPath (env.tree t.m_stagingPath), f.fileName = "manifest.json") :
    t.extractFinished env =
      (t, [Event.destroyStagingPath t.m_stagingPath,
           Event.emitFailed "Archive does not contain a recognized modpack type."]) :=
  extractFinished_no_marker env t hne hcfg hman

/-- C8, amended, at an archive that holds only `readme.txt`. -/
theorem extractFinished_unrecognized_witness :
    Example.staged.extractFinished Example.envNoMarker =
      (Example.staged, [Event.destroyStagingPath "/staging",
        Event.emitFailed "Archive does not contain a recognized modpack type."]) :=
  extractFinished_unrecognized Example.envNoMarker Example.staged (by decide) (by decide)
    (by decide)

/-- C8 as stated fails: at a non-empty archive with neither marker the reason
emitted is not `Archive does not contain a recognized modpack type`. -/
theorem extractFinished_unrecognized_reason_differs :
    Example.envNoMarker.extractResult ≠ [] ∧
    (¬ ∃ f ∈ filesIn "/staging" (Example.envNoMarker.tree "/staging"),
        f.fileName = "instance.cfg") ∧
    (¬ ∃ f ∈ filesIn "/staging" (Example.envNoMarker.tree "/staging"),
        f.fileName = "manifest.json") ∧
    (Example.staged.extractFinished Example.envNoMarker).2 ≠
      [Event.destroyStagingPath "/staging",
       Event.emitFailed "Archive does not contain a recognized modpack type"] := by
  refine ⟨by decide, by decide, by decide, ?_⟩
  rw [extractFinished_no_marker Example.envNoMarker Example.staged (by decide) (by decide)
    (by decide)]
  decide

/-- C5, amended: for a non-empty extraction whose tree holds a visible file
named `instance.cfg` (not hidden, below no hidden directory) and a file named
`manifest.json`, each at any depth, `extractFinished` is `processMultiMC` on
the `instance.cfg` that the search found; nothing of the curated path happens:
no manifest is loaded, no resolver is created or started. -/
theorem extractFinished_visible_native_precedence (env : Env) (t : InstanceImportTask)
    (hne : env.extractResult ≠ [])
    (hcfg : ∃ f ∈ visibleFilesIn t.m_stagingPath (env.tree t.m_stagingPath),
      f.fileName = "instance.cfg")
    (_hman : ∃ f ∈ filesIn t.m_stagingPath (env.tree t.m_stagingPath),
      f.fileName = "manifest.json") :
    (findRecursive t.m_stagingPath (env.tree t.m_stagingPath) "instance.cfg").fileName
        = "instance.cfg" ∧
    t.extractFinished env =
      t.processMultiMC env
        (findRecursive t.m_stagingPath (env.tree t.m_stagingPath) "instance.cfg") ∧
    (∀ e ∈ (t.extractFinished env).2, e.isCurse = false) ∧
    (t.extractFinished env).1.m_curseResolver = t.m_curseResolver := by
  have hfile := (findRecursive_isFile_iff _ _ _).mpr hcfg
  have heq : t.extractFinished env =
      t.processMultiMC env
        (findRecursive t.m_stagingPath (env.tree t.m_stagingPath) "instance.cfg") := by
    rw [extractFinished_nonempty env t hne]
    simp [hfile]
  refine ⟨?_, heq, ?_, ?_⟩
  · rcases findRecursive_sound t.m_stagingPath (env.tree t.m_stagingPath) "instance.cfg" with
      h0 | ⟨_, h2, _, _⟩
    · rw [h0] at hfile
      simp [QFileInfo.null] at hfile
    · exact h2
  · rw [heq]
    intro e he
    exact (processMultiMC_events env _ t e he).1
  · rw [heq, processMultiMC_eq]
    exact (importIcon_spec env _ t).2.2.2.1

/-- C5, amended, at an archive with `manifest.json` at the top and a visible
`instance.cfg` in a subdirectory: the native configuration in `/staging/pack`
is processed. -/
theorem extractFinished_visible_native_precedence_witness :
    (findRecursive "/staging" (Example.envBoth.tree "/staging") "instance.cfg").fileName
        = "instance.cfg" ∧
    Example.staged.extractFinished Example.envBoth =
      Example.staged.processMultiMC Example.envBoth
        (findRecursive "/staging" (Example.envBoth.tree "/staging") "instance.cfg") ∧
    (∀ e ∈ (Example.staged.extractFinished Example.envBoth).2, e.isCurse = false) ∧
    (Example.staged.extractFinished Example.envBoth).1.m_curseResolver = none :=
  extractFinished_visible_native_precedence Example.envBoth Example.staged (by decide)
    (by decide) (by decide)

/-- C5 as stated fails: the extraction is non-empty and the tree holds both
`instance.cfg` (below the hidden directory `.minecraft`) and `manifest.json`,
and `extractFinished` takes the curated path: it is `processCurse` on
`manifest.json`, loads the manifest and starts the resolver. -/
theorem extractFinished_hidden_native_takes_curse :
    Example.envHiddenNative.extractResult ≠ [] ∧
    (∃ f ∈ filesIn "/staging" (Example.envHiddenNative.tree "/staging"),
      f.fileName = "instance.cfg") ∧
    (∃ f ∈ filesIn "/staging" (Example.envHiddenNative.tree "/staging"),
      f.fileName = "manifest.json") ∧
    Example.staged.extractFinished Example.envHiddenNative =
      Example.staged.processCurse Example.envHiddenNative
        ⟨"/staging", "manifest.json", true, false, true⟩ ∧
    (Example.staged.extractFinished Example.envHiddenNative).2 =
      [Event.loadManifest "/staging/manifest.json",
       Event.iniSettingsObject "/staging/instance.cfg",
       Event.registerSetting "InstanceType" "Legacy",
       Event.setSetting "InstanceType" "OneSix",
       Event.setIntendedVersionId "1.12.2",
       Event.setName "Pack",
       Event.setIconKey "default",
       Event.resolverStart []] ∧
    ¬ ∀ e ∈ (Example.staged.extractFinished Example.envHiddenNative).2, e.isCurse = false := by
  have heq : Example.staged.extractFinished Example.envHiddenNative =
      Example.staged.processCurse Example.envHiddenNative
        ⟨"/staging", "manifest.json", true, false, true⟩ :=
    extractFinished_curse Example.envHiddenNative Example.staged (by decide) (by decide)
      (List.Mem.tail _ (List.Mem.head _))
  have hevs : (Example.staged.extractFinished Example.envHiddenNative).2 =
      [Event.loadManifest "/staging/manifest.json",
       Event.iniSettingsObject "/staging/instance.cfg",
       Event.registerSetting "InstanceType" "Legacy",
       Event.setSetting "InstanceType" "OneSix",
       Event.setIntendedVersionId "1.12.2",
       Event.setName "Pack",
       Event.setIconKey "default",
       Event.resolverStart []] := by
    rw [heq]
    rfl
  refine ⟨by decide, by decide, by decide, heq, hevs, ?_⟩
  rw [hevs]
  decide

/-! ## Commit -/

/-- C7: `processMultiMC` (native path) and `curseResolvingSucceeded` after a
successful `processCurse` (curated path) call
`commitStagedInstance(m_stagingPath, directory of the marker, m_instName, m_instGroup)`;
nothing before that call commits, destroys the staging path or ends the task;
when the call answers `false` the staging path is destroyed and the task fails
with `Unable to commit instance`, and when it answers `true` the task succeeds
and the staging path is not destroyed. -/
theorem commitStagedInstance_outcome (env : Env) (t : InstanceImportTask)
    (config manifest : QFileInfo) (pack : Curse.Manifest)
    (hload : env.loadManifest manifest.absoluteFilePath = .ok pack) :
    (∃ before : List Event,
      (∀ e ∈ before, e.isCommit = false ∧ e.isDestroy = false ∧ e.isTerminal = false) ∧
      (t.processMultiMC env config).2 =
        before ++
          (Event.commitStagedInstance t.m_stagingPath config.absolutePath t.m_instName
              t.m_instGroup ::
            if env.commitStagedInstance t.m_stagingPath config.absolutePath t.m_instName
                t.m_instGroup
            then [Event.emitSucceeded]
            else [Event.destroyStagingPath t.m_stagingPath,
                  Event.emitFailed "Unable to commit instance"])) ∧
    (∀ e ∈ (t.processCurse env manifest).2,
      e.isCommit = false ∧ e.isDestroy = false ∧ e.isTerminal = false) ∧
    (∃ before : List Event,
      (∀ e ∈ before, e.isCommit = false ∧ e.isDestroy = false ∧ e.isTerminal = false) ∧
      ((t.processCurse env manifest).1.curseResolvingSucceeded env).2 =
        before ++
          (Event.commitStagedInstance t.m_stagingPath manifest.absolutePath t.m_instName
              t.m_instGroup ::
            if env.commitStagedInstance t.m_stagingPath manifest.absolutePath t.m_instName
                t.m_instGroup
            then [Event.emitSucceeded]
            else [Event.destroyStagingPath t.m_stagingPath,
                  Event.emitFailed "Unable to commit instance"])) := by
  refine ⟨⟨_, ?_, (congrArg Prod.snd (processMultiMC_eq env config t))⟩, ?_, ?_⟩
  · intro e he
    simp only [List.mem_append, List.mem_cons, List.mem_singleton, List.not_mem_nil,
      or_false] at he
    rcases he with (rfl | rfl | rfl | rfl) | he
    · simp [Event.isCommit, Event.isDestroy, Event.isTerminal]
    · simp [Event.isCommit, Event.isDestroy, Event.isTerminal]
    · simp [Event.isCommit, Event.isDestroy, Event.isTerminal]
    · simp [Event.isCommit, Event.isDestroy, Event.isTerminal]
    · obtain ⟨h1, h2, h3, _⟩ := (importIcon_spec env config.absolutePath t).2.2.2.2 e he
      exact ⟨h1, h2, h3⟩
  · simp [InstanceImportTask.processCurse, hload, Event.isCommit, Event.isDestroy,
      Event.isTerminal]
  · refine ⟨env.resolverResults.map
      (fun result => Event.qDebug [result.fileName, " = ", result.url]), ?_, ?_⟩
    · intro e he
      obtain ⟨r, _, rfl⟩ := List.mem_map.mp he
      simp [Event.isCommit, Event.isDestroy, Event.isTerminal]
    · simp only [InstanceImportTask.processCurse, hload,
        InstanceImportTask.curseResolvingSucceeded, tr]
      cases env.commitStagedInstance t.m_stagingPath manifest.absolutePath t.m_instName
        t.m_instGroup <;> simp

/-- C7 at a curated pack with a valid manifest whose commit is refused. -/
theorem commitStagedInstance_outcome_witness :
    ∃ before : List Event,
      (∀ e ∈ before, e.isCommit = false ∧ e.isDestroy = false ∧ e.isTerminal = false) ∧
      ((Example.staged.processCurse (Example.envCurse false)
          ⟨"/staging", "manifest.json", true, false, true⟩).1.curseResolvingSucceeded
          (Example.envCurse false)).2 =
        before ++
          [Event.commitStagedInstance "/staging" "/staging" "Pack" "Packs",
           Event.destroyStagingPath "/staging",
           Event.emitFailed "Unable to commit instance"] :=
  (commitStagedInstance_outcome (Example.envCurse false) Example.staged
    ⟨"/staging", "instance.cfg", true, false, true⟩
    ⟨"/staging", "manifest.json", true, false, true⟩ ⟨"1.12.2", [⟨1, 2⟩]⟩ rfl).2.2

/-! ## Failure paths -/

/-- C6: `curseResolvingFailed(reason)` destroys the staging path, releases the
resolver and fails with `Unable to resolve Curse mod IDs:` followed by
`reason`, which therefore occurs in the text; it makes no other call, so
nothing is committed. -/
theorem curseResolvingFailed_cleans_up (t : InstanceImportTask) (reason : String) :
    (t.curseResolvingFailed reason).2 =
      [Event.destroyStagingPath t.m_stagingPath,
       Event.emitFailed ("Unable to resolve Curse mod IDs:\n" ++ reason)] ∧
    (t.curseResolvingFailed reason).1.m_curseResolver = none ∧
    reason.data <:+: ("Unable to resolve Curse mod IDs:\n" ++ reason).data ∧
    ∀ e ∈ (t.curseResolvingFailed reason).2, e.isCommit = false := by
  refine ⟨rfl, rfl, ?_, ?_⟩
  · rw [String.data_append]
    exact (List.suffix_append _ _).isInfix
  · simp [InstanceImportTask.curseResolvingFailed, Event.isCommit]

/-- C3, amended: `extractAborted` destroys the staging path and then ends the
task with `emitFailed`, the notification of the failure paths, with the reason
`Instance import has been aborted.`; its terminal notification is a failure. -/
theorem extractAborted_emits_failed (t : InstanceImportTask) :
    t.extractAborted =
      (t, [Event.destroyStagingPath t.m_stagingPath,
           Event.emitFailed "Instance import has been aborted."]) ∧
    ∀ e ∈ t.extractAborted.2, e.isTerminal = true → e.isFailed = true := by
  refine ⟨rfl, ?_⟩
  simp [InstanceImportTask.extractAborted, Event.isTerminal, Event.isFailed]

/-- C3 as stated fails: the terminal notification of `extractAborted` is the
failed notification. -/
theorem extractAborted_not_distinct :
    ¬ ∀ e ∈ Example.staged.extractAborted.2, e.isTerminal = true → e.isFailed = false := by
  decide

/-- C2 at its failing input: when `manifest.json` fails validation with cause
`bad`, `processCurse` loads the manifest and fails with a reason ending in the
cause; it does not start the resolver or commit, and it does not destroy the
staging path either. -/
theorem processCurse_bad_manifest :
    Example.staged.processCurse Example.envBadManifest
        ⟨"/staging", "manifest.json", true, false, true⟩ =
      (Example.staged,
        [Event.loadManifest "/staging/manifest.json",
         Event.emitFailed "Could not understand curse manifest:\nbad"]) := by
  rw [processCurse_error Example.envBadManifest _ Example.staged "bad" rfl]
  rfl

/-- C1 at its failing input: the run of a local import whose `manifest.json`
fails validation acquires the staging path and ends with `emitFailed`, and
`destroyStagingPath` is never called. -/
theorem run_bad_manifest_keeps_staging :
    (InstanceImportTask.run Example.envBadManifest Example.fresh [Signal.extractFinished]).2 =
      [Event.setStatus "Extracting modpack",
       Event.getStagedInstancePath,
       Event.qDebug ["Attempting to create instance from", "/tmp/pack.zip"],
       Event.extractDir "/tmp/pack.zip" "/staging",
       Event.loadManifest "/staging/manifest.json",
       Event.emitFailed "Could not understand curse manifest:\nbad"] ∧
    ∀ e ∈ (InstanceImportTask.run Example.envBadManifest Example.fresh
        [Signal.extractFinished]).2, e.isDestroy = false := by
  have hstart : Example.fresh.executeTask Example.envBadManifest =
      (Example.staged,
        [Event.setStatus "Extracting modpack",
         Event.getStagedInstancePath,
         Event.qDebug ["Attempting to create instance from", "/tmp/pack.zip"],
         Event.extractDir "/tmp/pack.zip" "/staging"]) := rfl
  have hfin : Example.staged.extractFinished Example.envBadManifest =
      (Example.staged,
        [Event.loadManifest "/staging/manifest.json",
         Event.emitFailed "Could not understand curse manifest:\nbad"]) := by
    rw [extractFinished_curse Example.envBadManifest Example.staged (by decide) (by decide)
      (List.Mem.head _)]
    rw [processCurse_error Example.envBadManifest _ Example.staged "bad" rfl]
    rfl
  have hrun : (InstanceImportTask.run Example.envBadManifest Example.fresh
      [Signal.extractFinished]).2 =
      [Event.setStatus "Extracting modpack",
       Event.getStagedInstancePath,
       Event.qDebug ["Attempting to create instance from", "/tmp/pack.zip"],
       Event.extractDir "/tmp/pack.zip" "/staging",
       Event.loadManifest "/staging/manifest.json",
       Event.emitFailed "Could not understand curse manifest:\nbad"] := by
    unfold InstanceImportTask.run
    rw [hstart]
    simp only [InstanceImportTask.deliverAll, InstanceImportTask.deliver, hfin, List.cons_append,
      List.nil_append]
  refine ⟨hrun, ?_⟩
  rw [hrun]
  decide
